import Mathlib

/-!
# Verification of the agent governance layer

A shallow embedding, in Lean 4, of the governance and safety components of
the agent repository:

* `ToolRateLimiter` (token bucket) from
  `02_function_calling_tools/lab/lab_03_plugin_framework/starter/manager.py`;
* `PathSanitizer.validate_safe_path` from `starter/security.py`, together
  with a faithful model of the POSIX `os.path` operations it calls
  (`abspath`, `join`, `normpath` translated from CPython's `posixpath`);
* `ToolRegistry.execute` / `execute_secure` from `starter/registry.py`;
* `CostTracker` from `project_starter/src/observability/cost_tracker.py`;
* `ObservableAgent.run` from `project_starter/src/agent/observable_agent.py`,
  with the tracer and loop detector (whose modules are absent from the
  sources) modelled from the design document.

Python floats for allowances, costs and timestamps are modelled as exact
rationals (`ℚ`); Python exceptions as `Except`; Python `None` as `Option`.
-/

/-! ## List helpers (association lists, point updates, indexed access) -/

/-- Point update of a list at an index, leaving other entries unchanged. -/
def modifyAt {α : Type} : List α → ℕ → (α → α) → List α
  | [], _, _ => []
  | a :: t, 0, f => f a :: t
  | a :: t, n + 1, f => a :: modifyAt t n f

/-- Indexed lookup in a list (`none` when out of range). -/
def getAt? {α : Type} : List α → ℕ → Option α
  | [], _ => none
  | a :: _, 0 => some a
  | _ :: t, n + 1 => getAt? t n

theorem length_modifyAt {α : Type} (l : List α) (i : ℕ) (f : α → α) :
    (modifyAt l i f).length = l.length := by
  induction l generalizing i with
  | nil => rfl
  | cons a t ih =>
    cases i with
    | zero => rfl
    | succ n => simp [modifyAt, ih]

theorem getAt?_modifyAt_self {α : Type} (l : List α) (i : ℕ) (f : α → α) :
    getAt? (modifyAt l i f) i = (getAt? l i).map f := by
  induction l generalizing i with
  | nil => rfl
  | cons a t ih =>
    cases i with
    | zero => rfl
    | succ n => simpa [modifyAt, getAt?] using ih n

theorem getAt?_append_length {α : Type} (l : List α) (a : α) :
    getAt? (l ++ [a]) l.length = some a := by
  induction l with
  | nil => rfl
  | cons b t ih => simpa [getAt?] using ih

/-- Dictionary lookup, modelling a Python dict keyed by strings. -/
def lookupA {α : Type} : List (String × α) → String → Option α
  | [], _ => none
  | (k2, v) :: t, k => if k2 = k then some v else lookupA t k

/-- Dictionary update: replace an existing binding, or append a new one. -/
def updateA {α : Type} : List (String × α) → String → α → List (String × α)
  | [], k, v => [(k, v)]
  | (k2, w) :: t, k, v =>
    if k2 = k then (k, v) :: t else (k2, w) :: updateA t k v

/-! ## ToolRateLimiter (token bucket), from `starter/manager.py`

The Python class stores `calls_per_minute : int`, `allowance : float`,
`last_check : float` (a `time.time()` timestamp).  The current time is an
explicit argument of `is_allowed` here, standing for `time.time()`. -/

structure ToolRateLimiter where
  calls_per_minute : ℕ
  allowance : ℚ
  last_check : ℚ
deriving Repr, DecidableEq

/-- `ToolRateLimiter.__init__`: a fresh bucket is full. -/
def ToolRateLimiter.init (calls_per_minute : ℕ) (now : ℚ) : ToolRateLimiter :=
  { calls_per_minute := calls_per_minute
    allowance := (calls_per_minute : ℚ)
    last_check := now }

/-- `ToolRateLimiter.is_allowed`, translated line by line: record the check
time, refill by elapsed time times `calls_per_minute / 60`, clamp at the
capacity, then spend one token when at least one is available. -/
def ToolRateLimiter.is_allowed (l : ToolRateLimiter) (now : ℚ) :
    Bool × ToolRateLimiter :=
  let time_passed := now - l.last_check
  let refill_rate := (l.calls_per_minute : ℚ) / 60
  let a1 := l.allowance + time_passed * refill_rate
  let a2 := if a1 > (l.calls_per_minute : ℚ) then (l.calls_per_minute : ℚ) else a1
  if a2 < 1 then
    (false, { l with allowance := a2, last_check := now })
  else
    (true, { l with allowance := a2 - 1, last_check := now })

/-- Issue `n` consecutive `is_allowed` calls, all at the same instant `t`,
collecting the verdicts in order. -/
def runCalls (l : ToolRateLimiter) (t : ℚ) : ℕ → List Bool × ToolRateLimiter
  | 0 => ([], l)
  | n + 1 =>
    let r1 := l.is_allowed t
    let rest := runCalls r1.2 t n
    (r1.1 :: rest.1, rest.2)

/-- Issue one `is_allowed` call per entry of `ds`, the entry giving the
elapsed time since the previous check. -/
def runTimed : ToolRateLimiter → List ℚ → ToolRateLimiter
  | l, [] => l
  | l, d :: ds => runTimed (l.is_allowed (l.last_check + d)).2 ds

/-! ## PathSanitizer, from `starter/security.py`

`validate_safe_path` calls `os.path.abspath` and `os.path.join`; both are
purely syntactic string operations (no symlink resolution), translated here
from CPython's `posixpath.py`.  The process working directory, which
`abspath` consults for relative inputs, is an explicit `cwd` argument.
The Python string primitives `split`, `startswith` and `endswith` are
re-implemented over the character lists underlying `String`, so that every
definition evaluates by kernel reduction. -/

/-- Python `str.split(sep)` for a one-character separator, on character
lists: `""` yields `[""]`, and separators delimit possibly empty fields. -/
def splitChar (sep : Char) : List Char → List (List Char)
  | [] => [[]]
  | c :: cs =>
    if c = sep then [] :: splitChar sep cs
    else
      match splitChar sep cs with
      | [] => [[c]]
      | g :: gs => (c :: g) :: gs

/-- Python `path.split("/")`. -/
def strSplitSlash (s : String) : List String :=
  (splitChar '/' s.data).map String.mk

/-- List prefix test by character equality. -/
def isPrefixChars : List Char → List Char → Bool
  | [], _ => true
  | _ :: _, [] => false
  | a :: as, b :: bs => if a = b then isPrefixChars as bs else false

/-- Python `s.startswith(p)`. -/
def strStartsWith (s p : String) : Bool :=
  isPrefixChars p.data s.data

/-- Python `s.endswith(p)`. -/
def strEndsWith (s p : String) : Bool :=
  isPrefixChars p.data.reverse s.data.reverse

/-- Python `"/".join(parts)`. -/
def intercalateSlash : List String → String
  | [] => ""
  | [s] => s
  | s :: rest => s ++ "/" ++ intercalateSlash rest

/-- The component-processing loop of `posixpath.normpath`: drop empty and
`.` components, let `..` pop a previous component unless at an unrooted
start or stacked on another `..`.  The accumulator is kept reversed. -/
def normLoop (initialSlashes : ℕ) : List String → List String → List String
  | acc, [] => acc.reverse
  | acc, comp :: rest =>
    if comp = "" ∨ comp = "." then
      normLoop initialSlashes acc rest
    else if comp ≠ ".." ∨ (initialSlashes = 0 ∧ acc = []) ∨ acc.head? = some ".." then
      normLoop initialSlashes (comp :: acc) rest
    else
      match acc with
      | [] => normLoop initialSlashes acc rest
      | _ :: t => normLoop initialSlashes t rest

/-- `posixpath.normpath`, translated from CPython. -/
def normpath (path : String) : String :=
  if path = "" then "." else
  let initialSlashes : ℕ :=
    if strStartsWith path "//" && ! strStartsWith path "///" then 2
    else if strStartsWith path "/" then 1 else 0
  let comps := strSplitSlash path
  let newComps := normLoop initialSlashes [] comps
  let joined := intercalateSlash newComps
  let res := String.mk (List.replicate initialSlashes '/') ++ joined
  if res = "" then "." else res

/-- `posixpath.join` for two arguments. -/
def posixJoin (a b : String) : String :=
  if strStartsWith b "/" then b
  else if a = "" ∨ strEndsWith a "/" then a ++ b
  else a ++ "/" ++ b

/-- `posixpath.abspath`: join a relative path onto the working directory,
then normalize. -/
def abspath (cwd path : String) : String :=
  if strStartsWith path "/" then normpath path
  else normpath (posixJoin cwd path)

/-- `PathSanitizer.validate_safe_path`, translated line by line.  The Python
code raises `SecurityError`; here the raise is the `Except.error` branch. -/
def validate_safe_path (cwd base_dir target_path : String) : Except String String :=
  let abs_base := abspath cwd base_dir
  let abs_target := abspath cwd (posixJoin base_dir target_path)
  if ! strStartsWith abs_target abs_base then
    Except.error ("Path traversal blocked: " ++ target_path)
  else
    Except.ok abs_target

/-- Semantic directory containment of canonical absolute paths: `p` is
within `base` when it equals `base` or lives below `base` as a directory. -/
def isWithin (base p : String) : Bool :=
  p = base || strStartsWith p (base ++ "/")


/-! ## Theorems about the rate limiter -/

theorem is_allowed_full_step (C a : ℕ) (t : ℚ) (h1 : a + 1 ≤ C) :
    ToolRateLimiter.is_allowed ⟨C, (a : ℚ) + 1, t⟩ t = (true, ⟨C, (a : ℚ), t⟩) := by
  have hgt : ¬ ((a : ℚ) + 1 > (C : ℚ)) := by
    rw [not_lt]
    exact_mod_cast h1
  have ha : (0 : ℚ) ≤ (a : ℚ) := by positivity
  have hlt : ¬ ((a : ℚ) + 1 < 1) := by
    rw [not_lt]
    linarith
  simp [ToolRateLimiter.is_allowed, hgt, hlt]

theorem is_allowed_empty_step (C : ℕ) (t : ℚ) :
    ToolRateLimiter.is_allowed ⟨C, 0, t⟩ t = (false, ⟨C, 0, t⟩) := by
  have hgt : ¬ ((0 : ℚ) > (C : ℚ)) := not_lt.mpr (by positivity)
  simp [ToolRateLimiter.is_allowed, hgt]

theorem runCalls_succ (l : ToolRateLimiter) (t : ℚ) (n : ℕ) :
    runCalls l t (n + 1) =
      ((l.is_allowed t).1 :: (runCalls (l.is_allowed t).2 t n).1,
       (runCalls (l.is_allowed t).2 t n).2) := rfl

theorem runCalls_drain (C : ℕ) : ∀ (a : ℕ) (t : ℚ), a ≤ C →
    runCalls ⟨C, (a : ℚ), t⟩ t (a + 1) =
      (List.replicate a true ++ [false], ⟨C, 0, t⟩) := by
  intro a
  induction a with
  | zero =>
    intro t _
    simp [runCalls, is_allowed_empty_step]
  | succ a ih =>
    intro t hle
    have hcast : ((a + 1 : ℕ) : ℚ) = (a : ℚ) + 1 := by push_cast; ring
    rw [hcast, runCalls_succ, is_allowed_full_step C a t hle]
    simp only []
    rw [ih t (Nat.le_of_succ_le hle)]
    simp [List.replicate_succ]

/-- C7.  Token-bucket burst behaviour: on a freshly constructed limiter of
capacity `C ≥ 1`, `C` consecutive immediate `is_allowed` calls all return
`true` and the `(C+1)`-th returns `false`. -/
theorem rate_limiter_burst (C : ℕ) (t : ℚ) (h : 1 ≤ C) :
    (runCalls (ToolRateLimiter.init C t) t (C + 1)).1 =
      List.replicate C true ++ [false] := by
  have h0 : 0 < C := h
  rw [show ToolRateLimiter.init C t = ⟨C, (C : ℚ), t⟩ from rfl]
  rw [runCalls_drain C C t le_rfl]

theorem rate_limiter_burst_witness :
    1 ≤ 3 ∧ (runCalls (ToolRateLimiter.init 3 0) 0 4).1 =
      List.replicate 3 true ++ [false] :=
  ⟨by decide, rate_limiter_burst 3 0 (by decide)⟩

theorem is_allowed_preserves_bounds (l : ToolRateLimiter) (now : ℚ)
    (h0 : 0 ≤ l.allowance) (hnow : l.last_check ≤ now) :
    0 ≤ ((l.is_allowed now).2).allowance ∧
    ((l.is_allowed now).2).allowance ≤ ((l.is_allowed now).2).calls_per_minute ∧
    ((l.is_allowed now).2).calls_per_minute = l.calls_per_minute ∧
    ((l.is_allowed now).2).last_check = now := by
  have hd : 0 ≤ now - l.last_check := by linarith
  have hr : 0 ≤ (l.calls_per_minute : ℚ) / 60 := by positivity
  have ha1 : 0 ≤ l.allowance + (now - l.last_check) * ((l.calls_per_minute : ℚ) / 60) :=
    add_nonneg h0 (mul_nonneg hd hr)
  have hC : (0 : ℚ) ≤ (l.calls_per_minute : ℚ) := by positivity
  simp only [ToolRateLimiter.is_allowed]
  generalize hg : l.allowance + (now - l.last_check) * ((l.calls_per_minute : ℚ) / 60) = A
  have hA : 0 ≤ A := hg ▸ ha1
  split_ifs with hgt hlt hlt2
  · exact ⟨hC, le_refl _, rfl, rfl⟩
  · have h1 : (1 : ℚ) ≤ (l.calls_per_minute : ℚ) := not_lt.mp hlt
    refine ⟨?_, ?_, rfl, rfl⟩
    · show 0 ≤ (l.calls_per_minute : ℚ) - 1
      linarith
    · show (l.calls_per_minute : ℚ) - 1 ≤ (l.calls_per_minute : ℚ)
      linarith
  · exact ⟨hA, not_lt.mp hgt, rfl, rfl⟩
  · have h1 : (1 : ℚ) ≤ A := not_lt.mp hlt2
    have hle : A ≤ (l.calls_per_minute : ℚ) := not_lt.mp hgt
    refine ⟨?_, ?_, rfl, rfl⟩
    · show 0 ≤ A - 1
      linarith
    · show A - 1 ≤ (l.calls_per_minute : ℚ)
      linarith

theorem runTimed_bounds (ds : List ℚ) : ∀ (l : ToolRateLimiter),
    (∀ d ∈ ds, 0 ≤ d) → 0 ≤ l.allowance →
    l.allowance ≤ (l.calls_per_minute : ℚ) →
    0 ≤ (runTimed l ds).allowance ∧
    (runTimed l ds).allowance ≤ ((runTimed l ds).calls_per_minute : ℚ) ∧
    (runTimed l ds).calls_per_minute = l.calls_per_minute := by
  induction ds with
  | nil =>
    intro l _ h0 hup
    exact ⟨h0, hup, rfl⟩
  | cons d ds ih =>
    intro l hds h0 _
    have hd : 0 ≤ d := hds d (List.mem_cons_self d ds)
    have hnow : l.last_check ≤ l.last_check + d := by linarith
    obtain ⟨b0, b1, b2, _⟩ := is_allowed_preserves_bounds l (l.last_check + d) h0 hnow
    have hrest := ih ((l.is_allowed (l.last_check + d)).2)
      (fun e he => hds e (List.mem_cons_of_mem d he)) b0 b1
    simp only [runTimed]
    refine ⟨hrest.1, hrest.2.1, ?_⟩
    rw [hrest.2.2, b2]

/-- C8.  Rate-limiter state invariant: for any sequence of calls with
arbitrary non-negative elapsed times between them, the allowance of a
freshly constructed limiter never exceeds the capacity and never drops
below zero. -/
theorem rate_limiter_state_invariant (C : ℕ) (t : ℚ) (ds : List ℚ)
    (h : ∀ d ∈ ds, 0 ≤ d) :
    0 ≤ (runTimed (ToolRateLimiter.init C t) ds).allowance ∧
    (runTimed (ToolRateLimiter.init C t) ds).allowance ≤ (C : ℚ) := by
  have hb := runTimed_bounds ds (ToolRateLimiter.init C t) h
    (show (0 : ℚ) ≤ (C : ℚ) by positivity) (le_refl _)
  refine ⟨hb.1, ?_⟩
  have := hb.2.1
  rwa [hb.2.2] at this

theorem rate_limiter_state_invariant_witness :
    (∀ d ∈ ([0, 2, 7, 35] : List ℚ), 0 ≤ d) ∧
    0 ≤ (runTimed (ToolRateLimiter.init 2 5) [0, 2, 7, 35]).allowance ∧
    (runTimed (ToolRateLimiter.init 2 5) [0, 2, 7, 35]).allowance ≤ (2 : ℚ) :=
  ⟨by decide, (rate_limiter_state_invariant 2 5 [0, 2, 7, 35] (by decide)).1,
   (rate_limiter_state_invariant 2 5 [0, 2, 7, 35] (by decide)).2⟩

/-! ## Theorems about the path sanitizer -/

/-- C1 counterexample.  The guard does not reject every escaping path: the
request `../bc/secret` against root `/a/b` resolves to `/a/bc/secret`,
which lies outside the root directory, yet `validate_safe_path` returns it
because the string `/a/bc/secret` starts with the string `/a/b`.  Moreover
`../x` against the root `/a/x` (whose parent `/a` differs from it) is
returned, not rejected, since it resolves back to the root itself. -/
theorem validate_safe_path_escape_accepted :
    validate_safe_path "/" "/a/b" "../bc/secret" = Except.ok "/a/bc/secret" ∧
    isWithin "/a/b" "/a/bc/secret" = false ∧
    validate_safe_path "/" "/a/x" "../x" = Except.ok "/a/x" :=
  ⟨rfl, rfl, rfl⟩

/-- C1 (amended).  `validate_safe_path` enforces string-prefix containment,
not directory containment: it raises the security error exactly when the
absolutized join of root and request does not start, as a string, with the
absolutized root, and otherwise returns that absolutized join. -/
theorem validate_safe_path_string_gate (cwd base target : String) :
    (strStartsWith (abspath cwd (posixJoin base target)) (abspath cwd base) = false →
      validate_safe_path cwd base target =
        Except.error ("Path traversal blocked: " ++ target)) ∧
    (strStartsWith (abspath cwd (posixJoin base target)) (abspath cwd base) = true →
      validate_safe_path cwd base target =
        Except.ok (abspath cwd (posixJoin base target))) := by
  constructor
  · intro h
    simp [validate_safe_path, h]
  · intro h
    simp [validate_safe_path, h]

theorem validate_safe_path_string_gate_witness :
    validate_safe_path "/" "/a/b" "sub/f.txt" = Except.ok "/a/b/sub/f.txt" ∧
    validate_safe_path "/" "/a/b" "../../etc/passwd" =
      Except.error ("Path traversal blocked: " ++ "../../etc/passwd") :=
  ⟨((validate_safe_path_string_gate "/" "/a/b" "sub/f.txt").2 rfl).trans rfl,
   (validate_safe_path_string_gate "/" "/a/b" "../../etc/passwd").1 rfl⟩

/-! ## Tools and the ToolRegistry, from `starter/registry.py`

A tool is used by the registry only through its `name`, `permissions` and
`execute` members (`base.BaseTool` is duck-typed).  A raising Python
`execute` is modelled as returning `Except.error`; pydantic
`ValidationError` is distinguished from other exceptions because the agent
loop handles it separately. -/

/-- Parsed JSON arguments of a tool call (a string-keyed object). -/
abbrev Args := List (String × String)

/-- A Python exception escaping a tool body: either a pydantic
`ValidationError` or any other `Exception`. -/
inductive PyErr where
  | validation (msg : String)
  | generic (msg : String)
deriving Repr, DecidableEq

/-- Python `str(e)` on the exception. -/
def PyErr.msg : PyErr → String
  | .validation m => m
  | .generic m => m

/-- The duck-typed tool interface: `name`, `permissions`, `execute`. -/
structure Tool where
  name : String
  permissions : List String
  execute : Args → Except PyErr String

/-- The structured result dict `{success, result, error}` every
registry-mediated call returns. -/
structure ToolResult where
  success : Bool
  result : Option String
  error : Option String
deriving Repr, DecidableEq

/-- Python `", ".join`-style concatenation. -/
def joinWith (sep : String) : List String → String
  | [] => ""
  | [s] => s
  | s :: rest => s ++ sep ++ joinWith sep rest

/-- Python `str` of a list of strings, as interpolated by an f-string:
`str(["a", "b"])` is `['a', 'b']`. -/
def pyReprStrList (l : List String) : String :=
  "[" ++ joinWith ", " (l.map (fun s => "\x27" ++ s ++ "\x27")) ++ "]"

/-- `ToolRegistry`: the `_tools` and `_limiters` dicts. -/
structure ToolRegistry where
  tools : List (String × Tool)
  limiters : List (String × ToolRateLimiter)

/-- `ToolRegistry.register`: store the tool and create its limiter,
overwriting any previous entry of the same name.  `now` stands for the
`time.time()` read in the limiter constructor. -/
def ToolRegistry.register (reg : ToolRegistry) (tool : Tool)
    (calls_per_minute : ℕ) (now : ℚ) : ToolRegistry :=
  { tools := updateA reg.tools tool.name tool
    limiters := updateA reg.limiters tool.name
      (ToolRateLimiter.init calls_per_minute now) }

/-- `ToolRegistry.get_tool`. -/
def ToolRegistry.get_tool (reg : ToolRegistry) (name : String) : Option Tool :=
  lookupA reg.tools name

/-- `ToolRegistry.execute`, translated line by line: unknown tool and
rate-limit denials return error dicts, a raising tool body is caught and
wrapped, a successful body is wrapped as a success dict.  The second
component is the registry after the limiter's in-place mutation. -/
def ToolRegistry.execute (reg : ToolRegistry) (now : ℚ) (tool_name : String)
    (arguments : Args) : ToolResult × ToolRegistry :=
  match reg.get_tool tool_name with
  | none =>
    ({ success := false, result := none,
       error := some ("Tool \x27" ++ tool_name ++ "\x27 not found.") }, reg)
  | some tool =>
    match lookupA reg.limiters tool_name with
    | some limiter =>
      let r := limiter.is_allowed now
      let reg2 : ToolRegistry :=
        { reg with limiters := updateA reg.limiters tool_name r.2 }
      if ! r.1 then
        ({ success := false, result := none,
           error := some ("Rate limit exceeded for tool \x27" ++ tool_name ++ "\x27.") },
         reg2)
      else
        match tool.execute arguments with
        | Except.ok v => ({ success := true, result := some v, error := none }, reg2)
        | Except.error e =>
          ({ success := false, result := none, error := some e.msg }, reg2)
    | none =>
      match tool.execute arguments with
      | Except.ok v => ({ success := true, result := some v, error := none }, reg)
      | Except.error e =>
        ({ success := false, result := none, error := some e.msg }, reg)

/-- `ToolRegistry.execute_secure`, translated line by line: compute the
missing permissions; deny listing them when non-empty; otherwise delegate
to `execute`. -/
def ToolRegistry.execute_secure (reg : ToolRegistry) (now : ℚ)
    (tool_name : String) (arguments : Args) (user_permissions : List String) :
    ToolResult × ToolRegistry :=
  match reg.get_tool tool_name with
  | none =>
    ({ success := false, result := none,
       error := some ("Tool \x27" ++ tool_name ++ "\x27 not found.") }, reg)
  | some tool =>
    let missing := tool.permissions.filter (fun p => ! user_permissions.contains p)
    if missing ≠ [] then
      ({ success := false, result := none,
         error := some ("Access Denied. Missing permissions: " ++ pyReprStrList missing) },
       reg)
    else
      reg.execute now tool_name arguments

/-! ## Theorems about the registry -/

/-- C5.  `execute_secure` enforces permissions before rate limiting: when
the caller's granted set misses some required permission, it returns the
access-denied failure listing the missing scopes and leaves the registry —
in particular every limiter's token count — unchanged; when the granted
set covers the requirements, it has exactly the semantics of `execute`. -/
theorem execute_secure_permission_gate (reg : ToolRegistry) (now : ℚ)
    (name : String) (args : Args) (perms : List String) (tool : Tool)
    (htool : reg.get_tool name = some tool) :
    (tool.permissions.filter (fun p => ! perms.contains p) ≠ [] →
      ToolRegistry.execute_secure reg now name args perms =
        ({ success := false, result := none,
           error := some ("Access Denied. Missing permissions: " ++
             pyReprStrList (tool.permissions.filter (fun p => ! perms.contains p))) },
         reg)) ∧
    (tool.permissions.filter (fun p => ! perms.contains p) = [] →
      ToolRegistry.execute_secure reg now name args perms =
        ToolRegistry.execute reg now name args) := by
  constructor
  · intro hmiss
    simp only [ToolRegistry.execute_secure, htool]
    rw [if_pos hmiss]
  · intro hok
    simp only [ToolRegistry.execute_secure, htool]
    rw [hok]
    simp

/-- A concrete two-permission tool for the registry witnesses. -/
def fsTool : Tool :=
  { name := "list_files"
    permissions := ["filesystem:read"]
    execute := fun _ => Except.ok "files" }

/-- A concrete registry holding `fsTool` with a 60/min limiter. -/
def fsRegistry : ToolRegistry :=
  ToolRegistry.register { tools := [], limiters := [] } fsTool 60 0

theorem execute_secure_permission_gate_witness :
    ToolRegistry.execute_secure fsRegistry 0 "list_files" [] [] =
      ({ success := false, result := none,
         error := some ("Access Denied. Missing permissions: " ++
           pyReprStrList ["filesystem:read"]) },
       fsRegistry) ∧
    ToolRegistry.execute_secure fsRegistry 0 "list_files" [] ["filesystem:read"] =
      ToolRegistry.execute fsRegistry 0 "list_files" [] :=
  ⟨(execute_secure_permission_gate fsRegistry 0 "list_files" [] [] fsTool rfl).1
      (by decide),
   (execute_secure_permission_gate fsRegistry 0 "list_files" [] ["filesystem:read"]
      fsTool rfl).2 (by decide)⟩

/-- C6.  `execute` is a total error boundary: whatever the tool name,
arguments, limiter state or tool behaviour (including a raising body,
absorbed as `Except.error`), the returned dict is either a success with no
error or a failure with a `none` result and an error message; no exception
crosses the registry boundary. -/
theorem execute_result_shape (reg : ToolRegistry) (now : ℚ) (name : String)
    (args : Args) :
    ((ToolRegistry.execute reg now name args).1.success = true ∧
     (ToolRegistry.execute reg now name args).1.error = none) ∨
    ((ToolRegistry.execute reg now name args).1.success = false ∧
     (ToolRegistry.execute reg now name args).1.result = none ∧
     ∃ m, (ToolRegistry.execute reg now name args).1.error = some m) := by
  cases hg : ToolRegistry.get_tool reg name with
  | none => simp [ToolRegistry.execute, hg]
  | some tool =>
    cases hl : lookupA reg.limiters name with
    | none =>
      cases he : tool.execute args with
      | ok v => simp [ToolRegistry.execute, hg, hl, he]
      | error e => simp [ToolRegistry.execute, hg, hl, he]
    | some limiter =>
      cases hb : (limiter.is_allowed now).1 with
      | false => simp [ToolRegistry.execute, hg, hl, hb]
      | true =>
        cases he : tool.execute args with
        | ok v => simp [ToolRegistry.execute, hg, hl, hb, he]
        | error e => simp [ToolRegistry.execute, hg, hl, hb, he]

/-! ## Conversation and completion data model, from `observable_agent.py`

The agent consumes a litellm completion response through
`response.choices[0].message` (content and `tool_calls`), `response.usage`
and `response.model`; this is the `Response` record below.  Conversation
turns are the four dict shapes the agent appends to `messages`. -/

/-- One requested tool call: `call.function.name` and the raw JSON string
`call.function.arguments`. -/
structure ToolCallFn where
  name : String
  arguments : String
deriving Repr, DecidableEq

/-- `response.usage`: prompt and completion token counts. -/
structure Usage where
  prompt_tokens : ℕ
  completion_tokens : ℕ
deriving Repr, DecidableEq

/-- The completion response as consumed by the agent loop. -/
structure Response where
  content : Option String
  tool_calls : List ToolCallFn
  usage : Option Usage
  model : String
deriving Repr, DecidableEq

/-- A conversation turn: the four message dicts built by the agent. -/
inductive Message where
  | system (content : String)
  | user (content : String)
  | assistant (content : Option String) (tool_calls : List ToolCallFn)
  | tool (name : String) (content : String)
deriving Repr, DecidableEq

/-! ## CostTracker, from `src/observability/cost_tracker.py` -/

/-- `StepCost` dataclass. -/
structure StepCost where
  step_number : ℕ
  model : String
  input_tokens : ℕ
  output_tokens : ℕ
  cost_usd : ℚ
  is_tool_call : Bool
deriving Repr, DecidableEq

/-- `QueryCost` dataclass. -/
structure QueryCost where
  query : String
  steps : List StepCost
  total_cost_usd : ℚ
  total_input_tokens : ℕ
  total_output_tokens : ℕ
deriving Repr, DecidableEq

/-- `QueryCost.add_step`: append the step and bump the running totals. -/
def QueryCost.add_step (q : QueryCost) (s : StepCost) : QueryCost :=
  { q with
    steps := q.steps ++ [s]
    total_cost_usd := q.total_cost_usd + s.cost_usd
    total_input_tokens := q.total_input_tokens + s.input_tokens
    total_output_tokens := q.total_output_tokens + s.output_tokens }

/-- `CostTracker`: the completed `queries` list and the `_current_query`
slot (here `current_query`). -/
structure CostTracker where
  queries : List QueryCost
  current_query : Option QueryCost
deriving Repr, DecidableEq

/-- `CostTracker.start_query`: unconditionally installs a fresh open
query. -/
def CostTracker.start_query (t : CostTracker) (query : String) : CostTracker :=
  { t with
    current_query := some
      { query := query, steps := [], total_cost_usd := 0
        total_input_tokens := 0, total_output_tokens := 0 } }

/-- `CostTracker.log_completion`: no-op without an open query; otherwise
read the usage (zero when absent), price at `0.00001` per token, and add
the step to the open query. -/
def CostTracker.log_completion (t : CostTracker) (step_number : ℕ)
    (response : Response) (is_tool_call : Bool) : CostTracker :=
  match t.current_query with
  | none => t
  | some q =>
    let input_tokens := match response.usage with
      | some u => u.prompt_tokens
      | none => 0
    let output_tokens := match response.usage with
      | some u => u.completion_tokens
      | none => 0
    let cost_usd : ℚ := ((input_tokens + output_tokens : ℕ) : ℚ) * (1 / 100000)
    let step : StepCost :=
      { step_number := step_number, model := response.model
        input_tokens := input_tokens, output_tokens := output_tokens
        cost_usd := cost_usd, is_tool_call := is_tool_call }
    { t with current_query := some (q.add_step step) }

/-- `CostTracker.end_query`: move the open query, if any, to the completed
list. -/
def CostTracker.end_query (t : CostTracker) : CostTracker :=
  match t.current_query with
  | none => t
  | some q => { queries := t.queries ++ [q], current_query := none }

/-- C10.  Calling `start_query` while a query is already open silently
replaces the open query with a fresh one: the completed-queries list is
unchanged and the prior open query — with all its recorded steps and
running totals — is discarded, never appended. -/
theorem start_query_discards_open (t : CostTracker) (q : String)
    (c : QueryCost) (_h : t.current_query = some c) :
    (t.start_query q).queries = t.queries ∧
    (t.start_query q).current_query = some
      { query := q, steps := [], total_cost_usd := 0
        total_input_tokens := 0, total_output_tokens := 0 } :=
  ⟨rfl, rfl⟩

theorem start_query_discards_open_witness :
    (CostTracker.start_query
      { queries := []
        current_query := some
          { query := "old", steps := [⟨1, "m", 3, 4, 7 / 100000, false⟩]
            total_cost_usd := 7 / 100000, total_input_tokens := 3
            total_output_tokens := 4 } } "new").queries = [] ∧
    (CostTracker.start_query
      { queries := []
        current_query := some
          { query := "old", steps := [⟨1, "m", 3, 4, 7 / 100000, false⟩]
            total_cost_usd := 7 / 100000, total_input_tokens := 3
            total_output_tokens := 4 } } "new").current_query = some
      { query := "new", steps := [], total_cost_usd := 0
        total_input_tokens := 0, total_output_tokens := 0 } :=
  start_query_discards_open _ "new" _ rfl

/-! ## Tracer and loop detector

`observable_agent.py` imports `AgentStep`, `AgentTracer`, `ToolCallRecord`
from `src.observability.tracer` and `AdvancedLoopDetector` from
`src.observability.loop_detector`; neither module is present in the
sources, so both are modelled from the design document. -/

/-- Modelled from the spec: `ToolCallRecord` as constructed by the agent
loop — tool name, parsed input, textual output, and a duration that the
agent always sets to `0`. -/
structure ToolCallRecord where
  tool_name : String
  tool_input : Args
  tool_output : String
  duration_ms : ℚ
deriving Repr, DecidableEq

/-- Modelled from the spec: `AgentStep` — step number (1-based), reasoning
text, ordered tool-call records, duration.  Wall-clock durations are not
representable here and are fixed at `0`. -/
structure AgentStep where
  step_number : ℕ
  reasoning : Option String
  tool_calls : List ToolCallRecord
  duration_ms : ℚ
deriving Repr, DecidableEq

/-- Modelled from the spec: one trace, owned by one run, with a terminal
status set exactly once by `end_trace` (status `completed` or `error`);
`open` marks a trace not yet ended. -/
structure TraceRecord where
  agent_name : String
  query : String
  model : String
  steps : List AgentStep
  status : String
  output : String
  error : Option String
deriving Repr, DecidableEq

/-- Modelled from the spec: `AgentTracer` accumulates traces; a trace id is
the index of the trace in the accumulated list. -/
structure AgentTracer where
  traces : List TraceRecord
deriving Repr, DecidableEq

/-- Modelled from the spec: `start_trace` creates a fresh open trace and
returns its id. -/
def AgentTracer.start_trace (tr : AgentTracer) (agent_name query model : String) :
    ℕ × AgentTracer :=
  (tr.traces.length,
   ⟨tr.traces ++ [{ agent_name := agent_name, query := query, model := model
                    steps := [], status := "open", output := "", error := none }]⟩)

/-- Modelled from the spec: `log_step` appends a step to the trace, in
order, never reordering or mutating prior steps. -/
def AgentTracer.log_step (tr : AgentTracer) (tid : ℕ) (s : AgentStep) :
    AgentTracer :=
  ⟨modifyAt tr.traces tid (fun t => { t with steps := t.steps ++ [s] })⟩

/-- Modelled from the spec: `end_trace` records the output and terminal
status (and optional error text) on the trace. -/
def AgentTracer.end_trace (tr : AgentTracer) (tid : ℕ) (output status : String)
    (err : Option String) : AgentTracer :=
  ⟨modifyAt tr.traces tid
    (fun t => { t with status := status, output := output, error := err })⟩

/-- Modelled from the spec: the result of a loop-detector check. -/
structure LoopCheckResult where
  is_looping : Bool
  message : String
deriving Repr, DecidableEq

/-- Modelled from the spec: `AdvancedLoopDetector` — a history of
`(tool_name, arguments)` pairs and of proposed final answers, with a
repetition threshold. -/
structure AdvancedLoopDetector where
  threshold : ℕ
  tool_history : List (String × String)
  answer_history : List String
deriving Repr, DecidableEq

/-- Length of the run of identical entries at the end of the history. -/
def countEqHead (a : String × String) : List (String × String) → ℕ
  | [] => 0
  | b :: t => if b = a then 1 + countEqHead a t else 0

/-- Length of the maximal constant run ending the list. -/
def trailingRun (l : List (String × String)) : ℕ :=
  match l.reverse with
  | [] => 0
  | a :: t => 1 + countEqHead a t

/-- Modelled from the spec: `check_tool_call` records the pair and flags a
loop when the same `(name, arguments)` pair has recurred at least
`threshold` times consecutively. -/
def AdvancedLoopDetector.check_tool_call (d : AdvancedLoopDetector)
    (name arguments : String) : LoopCheckResult × AdvancedLoopDetector :=
  let d2 := { d with tool_history := d.tool_history ++ [(name, arguments)] }
  if d.threshold ≤ trailingRun d2.tool_history then
    ({ is_looping := true
       message := "Loop detected: repeated tool call " ++ name }, d2)
  else
    ({ is_looping := false, message := "" }, d2)

/-- Modelled from the spec: `check_output_stagnation` records the proposed
final answer and flags a loop when it repeats the previous proposal. -/
def AdvancedLoopDetector.check_output_stagnation (d : AdvancedLoopDetector)
    (candidate : Option String) : LoopCheckResult × AdvancedLoopDetector :=
  let c := candidate.getD ""
  let stagnant := match d.answer_history.reverse with
    | [] => false
    | a :: _ => a = c
  let d2 := { d with answer_history := d.answer_history ++ [c] }
  if stagnant then
    ({ is_looping := true, message := "Loop detected: stagnant output" }, d2)
  else
    ({ is_looping := false, message := "" }, d2)

/-- Modelled from the spec: `reset` clears all history so that no state
leaks across runs. -/
def AdvancedLoopDetector.reset (d : AdvancedLoopDetector) : AdvancedLoopDetector :=
  { d with tool_history := [], answer_history := [] }

theorem countEqHead_le_length (a : String × String) (l : List (String × String)) :
    countEqHead a l ≤ l.length := by
  induction l with
  | nil => simp [countEqHead]
  | cons b t ih =>
    simp only [countEqHead, List.length_cons]
    split_ifs
    · omega
    · omega

theorem trailingRun_le_length (l : List (String × String)) :
    trailingRun l ≤ l.length := by
  unfold trailingRun
  cases hr : l.reverse with
  | nil =>
    show (0 : ℕ) ≤ l.length
    exact Nat.zero_le _
  | cons a t =>
    have hlen : l.length = t.length + 1 := by
      rw [← List.length_reverse l, hr, List.length_cons]
    have hc := countEqHead_le_length a t
    show 1 + countEqHead a t ≤ l.length
    omega

/-! ## ObservableAgent.run, from `src/agent/observable_agent.py`

The loop body is translated statement by statement.  Its external
collaborators are parameters of `AgentEnv`: the completion transport
(`acompletion`, which may raise — `Except.error`), the module-global
registry's `get_tool` (the module `src.tools.registry` is absent from the
sources; per the design document it maps a tool name to the tool or
`None`), and `json.loads` (raising on malformed input).  Note that the
loop calls `registry.get_tool` and then `tool.execute(**args)` directly;
`tool.execute` on a `None` lookup raises the Python `AttributeError`
caught by the generic `except` clause. -/

structure AgentEnv where
  transport : ℕ → List Message → Except String Response
  get_tool : String → Option Tool
  jsonLoads : String → Except String Args

/-- Constructor arguments of `ObservableAgent` used by `run`. -/
structure AgentConfig where
  model : String
  max_steps : ℕ
  agent_name : String
  system_prompt : Option String

/-- Python truthiness of the `final_answer` variable (`None` and the empty
string are falsy). -/
def truthy : Option String → Bool
  | none => false
  | some s => s ≠ ""

/-- The tool lookup-and-call pair `registry.get_tool(name)` followed by
`tool.execute(**args)`: a missing tool makes the attribute access on
`None` raise a generic `AttributeError`. -/
def execToolCall (env : AgentEnv) (name : String) (args : Args) :
    Except PyErr String :=
  match env.get_tool name with
  | none =>
    Except.error (PyErr.generic
      "\x27NoneType\x27 object has no attribute \x27execute\x27")
  | some tool => tool.execute args

/-- The mutable locals of the `for call in tool_calls` loop: the detector,
the conversation, the step's tool-call records, and `final_answer`. -/
structure DispatchState where
  detector : AdvancedLoopDetector
  messages : List Message
  records : List ToolCallRecord
  final : Option String
deriving Repr

/-- The `for call in tool_calls` body, translated clause by clause: a
detector trip, a `json.loads` failure, a pydantic `ValidationError` or any
other exception each set `final_answer` and break; a successful call
appends its record and a `tool` message and continues. -/
def dispatchCalls (env : AgentEnv) : DispatchState → List ToolCallFn → DispatchState
  | st, [] => st
  | st, call :: rest =>
    let chk := st.detector.check_tool_call call.name call.arguments
    if chk.1.is_looping then
      { st with detector := chk.2, final := some chk.1.message }
    else
      match env.jsonLoads call.arguments with
      | Except.error e =>
        { st with detector := chk.2
                  final := some ("Tool execution error: " ++ e) }
      | Except.ok args =>
        match execToolCall env call.name args with
        | Except.error (PyErr.validation m) =>
          { st with detector := chk.2
                    final := some ("Tool validation error: " ++ m) }
        | Except.error (PyErr.generic m) =>
          { st with detector := chk.2
                    final := some ("Tool execution error: " ++ m) }
        | Except.ok r =>
          dispatchCalls env
            { detector := chk.2
              messages := st.messages ++ [Message.tool call.name r]
              records := st.records ++
                [{ tool_name := call.name, tool_input := args
                   tool_output := r, duration_ms := 0 }]
              final := st.final }
            rest

/-- The mutable locals of the `while` loop plus the run-scoped tracer,
cost tracker and trace id. -/
structure LoopState where
  step_number : ℕ
  messages : List Message
  detector : AdvancedLoopDetector
  tracer : AgentTracer
  cost : CostTracker
  trace_id : ℕ
  final : Option String

/-- How one pass of the `while` loop ended: the transport raised, the loop
hit a `break`, or the step budget ran out. -/
inductive StepExit where
  | raised (e : String)
  | broke
  | ran_out
deriving Repr, DecidableEq

/-- The `while self._step_number < self.max_steps` loop, by recursion on
the remaining step budget.  Each pass: call the transport (a raise aborts
the loop), log the completion cost, then either take the final-answer
branch (no tool calls: stagnation check, log the step, break) or the
tool-call branch (append the assistant turn, dispatch each call, log the
step, break when `final_answer` is truthy). -/
def runLoop (env : AgentEnv) : ℕ → LoopState → StepExit × LoopState
  | 0, st => (StepExit.ran_out, st)
  | fuel + 1, st =>
    let n := st.step_number + 1
    match env.transport n st.messages with
    | Except.error e => (StepExit.raised e, { st with step_number := n })
    | Except.ok resp =>
      let cost2 := st.cost.log_completion n resp false
      if resp.tool_calls.isEmpty then
        let chk := st.detector.check_output_stagnation resp.content
        let fa := if chk.1.is_looping then some chk.1.message else resp.content
        let step : AgentStep :=
          { step_number := n, reasoning := resp.content
            tool_calls := [], duration_ms := 0 }
        (StepExit.broke,
         { st with step_number := n, detector := chk.2
                   tracer := st.tracer.log_step st.trace_id step
                   cost := cost2, final := fa })
      else
        let msgs2 := st.messages ++ [Message.assistant resp.content resp.tool_calls]
        let ds := dispatchCalls env
          { detector := st.detector, messages := msgs2
            records := [], final := st.final } resp.tool_calls
        let step : AgentStep :=
          { step_number := n, reasoning := resp.content
            tool_calls := ds.records, duration_ms := 0 }
        let st2 : LoopState :=
          { step_number := n, messages := ds.messages, detector := ds.detector
            tracer := st.tracer.log_step st.trace_id step
            cost := cost2, trace_id := st.trace_id, final := ds.final }
        if truthy ds.final then (StepExit.broke, st2)
        else runLoop env fuel st2

/-- The statements of `run` before the `try` block: start the trace and
the cost query, reset the detector, and build the initial conversation. -/
def initLoopState (cfg : AgentConfig) (tracer0 : AgentTracer)
    (detector0 : AdvancedLoopDetector) (cost0 : CostTracker)
    (user_query : String) : LoopState :=
  let started := tracer0.start_trace cfg.agent_name user_query cfg.model
  { step_number := 0
    messages :=
      (match cfg.system_prompt with
       | some sp => [Message.system sp]
       | none => []) ++ [Message.user user_query]
    detector := detector0.reset
    tracer := started.2
    cost := cost0.start_query user_query
    trace_id := started.1
    final := none }

/-- What `run` returns and the run-scoped state it leaves behind: the
`{"answer": ...}` payload together with the tracer, the cost tracker, the
run's trace id and the number of executed steps. -/
structure RunResult where
  answer : String
  tracer : AgentTracer
  cost_tracker : CostTracker
  trace_id : ℕ
  steps : ℕ

/-- `ObservableAgent.run`, translated clause by clause.  A normal exit of
the `while` loop substitutes the fallback answer when `final_answer` is
falsy, ends the trace as `completed`, closes the cost query and returns;
the `except` clause ends the trace as `error`, closes the cost query and
returns the `Agent failed:` answer. -/
def ObservableAgent.run (cfg : AgentConfig) (env : AgentEnv)
    (tracer0 : AgentTracer) (detector0 : AdvancedLoopDetector)
    (cost0 : CostTracker) (user_query : String) : RunResult :=
  let st0 := initLoopState cfg tracer0 detector0 cost0 user_query
  match runLoop env cfg.max_steps st0 with
  | (StepExit.raised e, st) =>
    { answer := "Agent failed: " ++ e
      tracer := st.tracer.end_trace st0.trace_id "" "error" (some e)
      cost_tracker := st.cost.end_query
      trace_id := st0.trace_id
      steps := st.step_number }
  | (_, st) =>
    let ans := if truthy st.final then st.final.getD ""
               else "Max steps reached without final answer."
    { answer := ans
      tracer := st.tracer.end_trace st0.trace_id ans "completed" none
      cost_tracker := st.cost.end_query
      trace_id := st0.trace_id
      steps := st.step_number }

/-- The status of the trace a run produced. -/
def traceStatusAt (tr : AgentTracer) (tid : ℕ) : Option String :=
  (getAt? tr.traces tid).map TraceRecord.status

/-! ## Supporting lemmas for the agent-loop theorems -/

theorem getAt?_modifyAt {α : Type} (l : List α) (i j : ℕ) (f : α → α) :
    getAt? (modifyAt l i f) j =
      if i = j then (getAt? l j).map f else getAt? l j := by
  induction l generalizing i j with
  | nil => simp [modifyAt, getAt?]
  | cons a t ih =>
    cases i with
    | zero =>
      cases j with
      | zero => simp [modifyAt, getAt?]
      | succ m => simp [modifyAt, getAt?]
    | succ n =>
      cases j with
      | zero => simp [modifyAt, getAt?]
      | succ m => simp [modifyAt, getAt?, ih]

theorem traceStatusAt_log_step (tr : AgentTracer) (tid j : ℕ) (s : AgentStep) :
    traceStatusAt (tr.log_step tid s) j = traceStatusAt tr j := by
  unfold traceStatusAt AgentTracer.log_step
  rw [getAt?_modifyAt]
  split_ifs with h
  · cases hx : getAt? tr.traces j with
    | none => rfl
    | some rec => rfl
  · rfl

theorem traceStatusAt_end_trace (tr : AgentTracer) (tid : ℕ)
    (output status : String) (err : Option String)
    (h : (getAt? tr.traces tid).isSome = true) :
    traceStatusAt (tr.end_trace tid output status err) tid = some status := by
  unfold traceStatusAt AgentTracer.end_trace
  rw [getAt?_modifyAt, if_pos rfl]
  cases hx : getAt? tr.traces tid with
  | none => rw [hx] at h; simp at h
  | some rec => rfl

theorem string_append_ne_empty (p q : String) (hp : p ≠ "") : p ++ q ≠ "" := by
  intro h
  have hd := congrArg String.data h
  rw [String.data_append] at hd
  rcases List.append_eq_nil.mp hd with ⟨h1, _⟩
  exact hp (by cases p; simp_all)

theorem check_tool_call_no_trip (d : AdvancedLoopDetector) (name args : String)
    (h : ¬ (d.threshold ≤ trailingRun (d.tool_history ++ [(name, args)]))) :
    d.check_tool_call name args =
      ({ is_looping := false, message := "" },
       { d with tool_history := d.tool_history ++ [(name, args)] }) := by
  unfold AdvancedLoopDetector.check_tool_call
  rw [if_neg h]

/-- One successful dispatch: when the detector does not trip, the
arguments parse, and the (arbitrary-permission) tool found by
`get_tool` executes successfully, the loop invokes the body directly and
appends its observation — no permission or rate-limit check occurs. -/
theorem dispatchCalls_cons_ok (env : AgentEnv) (dst : DispatchState)
    (c : ToolCallFn) (rest : List ToolCallFn) (a : Args) (r : String)
    (hnl : ¬ (dst.detector.threshold ≤
      trailingRun (dst.detector.tool_history ++ [(c.name, c.arguments)])))
    (hp : env.jsonLoads c.arguments = Except.ok a)
    (hx : execToolCall env c.name a = Except.ok r) :
    dispatchCalls env dst (c :: rest) =
      dispatchCalls env
        { detector := (dst.detector.check_tool_call c.name c.arguments).2
          messages := dst.messages ++ [Message.tool c.name r]
          records := dst.records ++
            [{ tool_name := c.name, tool_input := a
               tool_output := r, duration_ms := 0 }]
          final := dst.final } rest := by
  rw [show dispatchCalls env dst (c :: rest) =
      (let chk := dst.detector.check_tool_call c.name c.arguments
       if chk.1.is_looping then
         { dst with detector := chk.2, final := some chk.1.message }
       else
         match env.jsonLoads c.arguments with
         | Except.error e =>
           { dst with detector := chk.2
                      final := some ("Tool execution error: " ++ e) }
         | Except.ok args =>
           match execToolCall env c.name args with
           | Except.error (PyErr.validation m) =>
             { dst with detector := chk.2
                        final := some ("Tool validation error: " ++ m) }
           | Except.error (PyErr.generic m) =>
             { dst with detector := chk.2
                        final := some ("Tool execution error: " ++ m) }
           | Except.ok r2 =>
             dispatchCalls env
               { detector := chk.2
                 messages := dst.messages ++ [Message.tool c.name r2]
                 records := dst.records ++
                   [{ tool_name := c.name, tool_input := args
                      tool_output := r2, duration_ms := 0 }]
                 final := dst.final } rest) from rfl]
  rw [check_tool_call_no_trip dst.detector c.name c.arguments hnl]
  simp only [hp, hx]
  simp

theorem runLoop_trace_invariant (env : AgentEnv) :
    ∀ (fuel : ℕ) (st : LoopState),
      (runLoop env fuel st).2.trace_id = st.trace_id ∧
      traceStatusAt (runLoop env fuel st).2.tracer st.trace_id =
        traceStatusAt st.tracer st.trace_id := by
  intro fuel
  induction fuel with
  | zero => intro st; exact ⟨rfl, rfl⟩
  | succ fuel ih =>
    intro st
    simp only [runLoop]
    cases htr : env.transport (st.step_number + 1) st.messages with
    | error e => exact ⟨rfl, rfl⟩
    | ok resp =>
      cases hemp : resp.tool_calls.isEmpty with
      | true =>
        simp only [hemp, if_true]
        exact ⟨trivial, traceStatusAt_log_step _ _ _ _⟩
      | false =>
        simp only [hemp, Bool.false_eq_true, if_false]
        cases htru : truthy (dispatchCalls env
            { detector := st.detector
              messages := st.messages ++
                [Message.assistant resp.content resp.tool_calls]
              records := [], final := st.final } resp.tool_calls).final with
        | true =>
          simp only [htru, if_true]
          exact ⟨trivial, traceStatusAt_log_step _ _ _ _⟩
        | false =>
          simp only [htru, Bool.false_eq_true, if_false]
          exact ⟨(ih _).1, (ih _).2.trans (traceStatusAt_log_step _ _ _ _)⟩

/-- C2.  The public contract of `run` never raises: for every query and
every behaviour of the completion transport, `run` returns a result record
carrying an answer; when the transport raises at any step, the run's trace
is ended with status `error` and `run` still returns — with the
`Agent failed:` answer — rather than propagating; otherwise the trace is
ended with status `completed`. -/
theorem observable_run_never_raises (cfg : AgentConfig) (env : AgentEnv)
    (tracer0 : AgentTracer) (detector0 : AdvancedLoopDetector)
    (cost0 : CostTracker) (q : String) :
    match (runLoop env cfg.max_steps
        (initLoopState cfg tracer0 detector0 cost0 q)).1 with
    | StepExit.raised e =>
      (ObservableAgent.run cfg env tracer0 detector0 cost0 q).answer =
        "Agent failed: " ++ e ∧
      traceStatusAt (ObservableAgent.run cfg env tracer0 detector0 cost0 q).tracer
        (ObservableAgent.run cfg env tracer0 detector0 cost0 q).trace_id =
        some "error"
    | _ =>
      traceStatusAt (ObservableAgent.run cfg env tracer0 detector0 cost0 q).tracer
        (ObservableAgent.run cfg env tracer0 detector0 cost0 q).trace_id =
        some "completed" := by
  have hopen : traceStatusAt (initLoopState cfg tracer0 detector0 cost0 q).tracer
      (initLoopState cfg tracer0 detector0 cost0 q).trace_id = some "open" := by
    show (getAt? (tracer0.traces ++
        [{ agent_name := cfg.agent_name, query := q, model := cfg.model
           steps := [], status := "open", output := "", error := none }])
        tracer0.traces.length).map TraceRecord.status = some "open"
    rw [getAt?_append_length]
    rfl
  have hinv := runLoop_trace_invariant env cfg.max_steps
    (initLoopState cfg tracer0 detector0 cost0 q)
  rcases hrl : runLoop env cfg.max_steps (initLoopState cfg tracer0 detector0 cost0 q)
    with ⟨ex, st⟩
  rw [hrl] at hinv
  obtain ⟨hid, hstat⟩ := hinv
  have hsome : (getAt? st.tracer.traces
      (initLoopState cfg tracer0 detector0 cost0 q).trace_id).isSome = true := by
    have h2 := hstat.trans hopen
    unfold traceStatusAt at h2
    cases hx : getAt? st.tracer.traces
        (initLoopState cfg tracer0 detector0 cost0 q).trace_id with
    | none => rw [hx] at h2; exact absurd h2 (by simp)
    | some _ => rfl
  cases ex with
  | raised e =>
    refine ⟨?_, ?_⟩
    · show (ObservableAgent.run cfg env tracer0 detector0 cost0 q).answer =
        "Agent failed: " ++ e
      simp only [ObservableAgent.run, hrl]
    · show traceStatusAt
        (ObservableAgent.run cfg env tracer0 detector0 cost0 q).tracer
        (ObservableAgent.run cfg env tracer0 detector0 cost0 q).trace_id =
        some "error"
      simp only [ObservableAgent.run, hrl]
      exact traceStatusAt_end_trace _ _ _ _ _ hsome
  | broke =>
    show traceStatusAt
      (ObservableAgent.run cfg env tracer0 detector0 cost0 q).tracer
      (ObservableAgent.run cfg env tracer0 detector0 cost0 q).trace_id =
      some "completed"
    simp only [ObservableAgent.run, hrl]
    exact traceStatusAt_end_trace _ _ _ _ _ hsome
  | ran_out =>
    show traceStatusAt
      (ObservableAgent.run cfg env tracer0 detector0 cost0 q).tracer
      (ObservableAgent.run cfg env tracer0 detector0 cost0 q).trace_id =
      some "completed"
    simp only [ObservableAgent.run, hrl]
    exact traceStatusAt_end_trace _ _ _ _ _ hsome

theorem runLoop_all_tool_steps (env : AgentEnv)
    (H : ∀ (n : ℕ) (msgs : List Message), ∃ resp c a r,
      env.transport n msgs = Except.ok resp ∧
      resp.tool_calls = [c] ∧
      env.jsonLoads c.arguments = Except.ok a ∧
      execToolCall env c.name a = Except.ok r) :
    ∀ (fuel : ℕ) (st : LoopState),
      st.final = none →
      st.detector.tool_history.length + fuel < st.detector.threshold →
      (runLoop env fuel st).1 = StepExit.ran_out ∧
      (runLoop env fuel st).2.final = none ∧
      (runLoop env fuel st).2.step_number = st.step_number + fuel := by
  intro fuel
  induction fuel with
  | zero =>
    intro st hf _
    exact ⟨rfl, hf, by simp [runLoop]⟩
  | succ fuel ih =>
    intro st hf hb
    obtain ⟨resp, c, a, r, htr, hcalls, hp, hx⟩ := H (st.step_number + 1) st.messages
    have hemp : resp.tool_calls.isEmpty = false := by rw [hcalls]; rfl
    have hlen := trailingRun_le_length (st.detector.tool_history ++ [(c.name, c.arguments)])
    have hnl : ¬ (st.detector.threshold ≤
        trailingRun (st.detector.tool_history ++ [(c.name, c.arguments)])) := by
      rw [List.length_append] at hlen
      simp only [List.length_cons, List.length_nil] at hlen
      omega
    simp only [runLoop, htr, hemp, Bool.false_eq_true, if_false]
    rw [hcalls]
    rw [dispatchCalls_cons_ok env _ c [] a r hnl hp hx]
    simp only [dispatchCalls]
    rw [check_tool_call_no_trip st.detector c.name c.arguments hnl]
    simp only [hf, truthy, Bool.false_eq_true, if_false]
    have hb2 : (st.detector.tool_history ++ [(c.name, c.arguments)]).length + fuel <
        st.detector.threshold := by
      rw [List.length_append]
      simp only [List.length_cons, List.length_nil]
      omega
    refine ⟨(ih _ rfl hb2).1, (ih _ rfl hb2).2.1, (ih _ rfl hb2).2.2.trans ?_⟩
    show st.step_number + 1 + fuel = st.step_number + (fuel + 1)
    omega

/-- C9 (amended).  Max-steps termination holds for transports that keep the
dispatch loop fault-free: when every step's response carries exactly one
tool call whose arguments parse and whose tool executes successfully, and
the loop-detector threshold exceeds `max_steps`, the run terminates after
exactly `max_steps` steps with the fixed fallback answer. -/
theorem run_max_steps_fallback (cfg : AgentConfig) (env : AgentEnv)
    (tracer0 : AgentTracer) (detector0 : AdvancedLoopDetector)
    (cost0 : CostTracker) (q : String)
    (hthr : cfg.max_steps < detector0.threshold)
    (H : ∀ (n : ℕ) (msgs : List Message), ∃ resp c a r,
      env.transport n msgs = Except.ok resp ∧
      resp.tool_calls = [c] ∧
      env.jsonLoads c.arguments = Except.ok a ∧
      execToolCall env c.name a = Except.ok r) :
    (ObservableAgent.run cfg env tracer0 detector0 cost0 q).answer =
      "Max steps reached without final answer." ∧
    (ObservableAgent.run cfg env tracer0 detector0 cost0 q).steps =
      cfg.max_steps := by
  have hb : (initLoopState cfg tracer0 detector0 cost0 q).detector.tool_history.length +
      cfg.max_steps <
      (initLoopState cfg tracer0 detector0 cost0 q).detector.threshold := by
    show (0 : ℕ) + cfg.max_steps < detector0.threshold
    omega
  have h0 := runLoop_all_tool_steps env H cfg.max_steps
    (initLoopState cfg tracer0 detector0 cost0 q) rfl hb
  rcases hrl : runLoop env cfg.max_steps (initLoopState cfg tracer0 detector0 cost0 q)
    with ⟨ex, st⟩
  rw [hrl] at h0
  obtain ⟨h1, h2, h3⟩ := h0
  have h1x : ex = StepExit.ran_out := h1
  subst h1x
  have h2x : st.final = none := h2
  constructor
  · show (ObservableAgent.run cfg env tracer0 detector0 cost0 q).answer =
      "Max steps reached without final answer."
    simp only [ObservableAgent.run, hrl]
    rw [h2x]
    rfl
  · show (ObservableAgent.run cfg env tracer0 detector0 cost0 q).steps = cfg.max_steps
    simp only [ObservableAgent.run, hrl]
    have h3x : st.step_number = 0 + cfg.max_steps := h3
    rw [h3x]
    omega

/-! ## Concrete scenarios for witnesses and counterexamples -/

/-- A tool that always succeeds. -/
def stepTool : Tool :=
  { name := "adder", permissions := [], execute := fun _ => Except.ok "3" }

/-- An environment whose transport requests the same single tool call on
every step, with parsing and execution always succeeding. -/
def alwaysToolEnv : AgentEnv :=
  { transport := fun _ _ => Except.ok
      { content := some "calling adder"
        tool_calls := [{ name := "adder", arguments := "a" }]
        usage := none, model := "m" }
    get_tool := fun n => if n = "adder" then some stepTool else none
    jsonLoads := fun s => Except.ok [("raw", s)] }

/-- An environment whose transport requests a tool call on every step but
whose call arguments fail to parse. -/
def badArgsEnv : AgentEnv :=
  { transport := fun _ _ => Except.ok
      { content := some "calling"
        tool_calls := [{ name := "adder", arguments := "oops" }]
        usage := none, model := "m" }
    get_tool := fun n => if n = "adder" then some stepTool else none
    jsonLoads := fun _ => Except.error "invalid json" }

/-- A tool guarded by a permission scope. -/
def adminTool : Tool :=
  { name := "t1", permissions := ["admin"], execute := fun _ => Except.ok "SECRET-RAN" }

/-- An environment that requests the guarded tool on step 1 and finishes
with a plain answer on step 2. -/
def bypassEnv : AgentEnv :=
  { transport := fun n _ =>
      if n = 1 then Except.ok
        { content := some "thinking"
          tool_calls := [{ name := "t1", arguments := "a=1" }]
          usage := none, model := "m" }
      else Except.ok
        { content := some "done", tool_calls := [], usage := none, model := "m" }
    get_tool := fun n => if n = "t1" then some adminTool else none
    jsonLoads := fun s => Except.ok [("raw", s)] }

def maxStepsCfg : AgentConfig :=
  { model := "m", max_steps := 2, agent_name := "A", system_prompt := none }

def threeStepCfg : AgentConfig :=
  { model := "m", max_steps := 3, agent_name := "A", system_prompt := none }

def bypassCfg : AgentConfig :=
  { model := "m", max_steps := 5, agent_name := "A", system_prompt := none }

def freshDetector : AdvancedLoopDetector :=
  { threshold := 10, tool_history := [], answer_history := [] }

def freshTracer : AgentTracer := { traces := [] }

def freshCost : CostTracker := { queries := [], current_query := none }

theorem run_max_steps_fallback_witness :
    maxStepsCfg.max_steps < freshDetector.threshold ∧
    (ObservableAgent.run maxStepsCfg alwaysToolEnv freshTracer freshDetector
      freshCost "q").answer = "Max steps reached without final answer." ∧
    (ObservableAgent.run maxStepsCfg alwaysToolEnv freshTracer freshDetector
      freshCost "q").steps = 2 :=
  ⟨by decide,
   (run_max_steps_fallback maxStepsCfg alwaysToolEnv freshTracer freshDetector
      freshCost "q" (by decide)
      (fun _ _ => ⟨_, _, _, _, rfl, rfl, rfl, rfl⟩)).1,
   (run_max_steps_fallback maxStepsCfg alwaysToolEnv freshTracer freshDetector
      freshCost "q" (by decide)
      (fun _ _ => ⟨_, _, _, _, rfl, rfl, rfl, rfl⟩)).2⟩

/-- C9 counterexample.  A transport that returns a tool call on every step
(`badArgsEnv` is constant in the step) does not reach the max-steps
outcome: the dispatch fault ends the run at step 1 of 3 with the failure
text as the answer, not the fallback message. -/
theorem run_max_steps_fallback_cex :
    threeStepCfg.max_steps = 3 ∧
    (ObservableAgent.run threeStepCfg badArgsEnv freshTracer freshDetector
      freshCost "q").steps = 1 ∧
    (ObservableAgent.run threeStepCfg badArgsEnv freshTracer freshDetector
      freshCost "q").answer = "Tool execution error: invalid json" :=
  ⟨rfl, rfl, rfl⟩

theorem truthy_some_append (p e : String) (hp : p ≠ "") :
    truthy (some (p ++ e)) = true := by
  simp only [truthy]
  exact decide_eq_true (string_append_ne_empty p e hp)

/-- C3 (amended).  The agent loop dispatches a model-requested tool call by
`registry.get_tool` followed by a direct `tool.execute`: for any tool the
lookup returns — whatever its required `permissions`, and with no rate
limiter anywhere in the loop — the body runs and its observation is
appended; no permission check and no rate-limit check guards the call. -/
theorem agent_dispatch_bypasses_governance (env : AgentEnv)
    (dst : DispatchState) (c : ToolCallFn) (rest : List ToolCallFn)
    (tool : Tool) (a : Args) (r : String)
    (htool : env.get_tool c.name = some tool)
    (hnl : ¬ (dst.detector.threshold ≤
      trailingRun (dst.detector.tool_history ++ [(c.name, c.arguments)])))
    (hp : env.jsonLoads c.arguments = Except.ok a)
    (hx : tool.execute a = Except.ok r) :
    dispatchCalls env dst (c :: rest) =
      dispatchCalls env
        { detector := { dst.detector with
            tool_history := dst.detector.tool_history ++ [(c.name, c.arguments)] }
          messages := dst.messages ++ [Message.tool c.name r]
          records := dst.records ++
            [{ tool_name := c.name, tool_input := a
               tool_output := r, duration_ms := 0 }]
          final := dst.final } rest := by
  have hxc : execToolCall env c.name a = Except.ok r := by
    unfold execToolCall
    rw [htool]
    exact hx
  rw [dispatchCalls_cons_ok env dst c rest a r hnl hp hxc]
  rw [check_tool_call_no_trip dst.detector c.name c.arguments hnl]

theorem agent_dispatch_bypasses_governance_witness :
    dispatchCalls bypassEnv
      { detector := freshDetector, messages := [], records := [], final := none }
      [{ name := "t1", arguments := "a=1" }] =
      dispatchCalls bypassEnv
        { detector := { freshDetector with tool_history := [("t1", "a=1")] }
          messages := [Message.tool "t1" "SECRET-RAN"]
          records := [{ tool_name := "t1", tool_input := [("raw", "a=1")]
                        tool_output := "SECRET-RAN", duration_ms := 0 }]
          final := none } [] :=
  agent_dispatch_bypasses_governance bypassEnv
    { detector := freshDetector, messages := [], records := [], final := none }
    { name := "t1", arguments := "a=1" } [] adminTool [("raw", "a=1")]
    "SECRET-RAN" rfl (by decide) rfl rfl

/-- C3 counterexample.  In a full run, the loop executes a tool that
requires the `admin` permission scope although no permission was granted
anywhere: the tool body's output lands in the trace and the run finishes
normally, while the registry's governed `execute_secure` path denies
exactly this call for a caller with no permissions. -/
theorem agent_dispatch_bypasses_governance_cex :
    adminTool.permissions = ["admin"] ∧
    (ObservableAgent.run bypassCfg bypassEnv freshTracer freshDetector
      freshCost "q").answer = "done" ∧
    (getAt? (ObservableAgent.run bypassCfg bypassEnv freshTracer freshDetector
        freshCost "q").tracer.traces 0).map
      (fun t => t.steps.map (fun s => s.tool_calls.map ToolCallRecord.tool_output)) =
      some [["SECRET-RAN"], []] ∧
    (ToolRegistry.execute_secure
        (ToolRegistry.register { tools := [], limiters := [] } adminTool 60 0)
        0 "t1" [] []).1 =
      { success := false, result := none
        error := some ("Access Denied. Missing permissions: " ++
          pyReprStrList ["admin"]) } :=
  ⟨rfl, rfl, rfl, rfl⟩

/-- The three ways a dispatched call can fail below the loop boundary:
`json.loads` raising, the tool raising a pydantic `ValidationError`, or
the tool (or the `None` lookup) raising any other exception. -/
inductive CallFailure where
  | parse (e : String)
  | validation (e : String)
  | generic (e : String)

/-- The text the loop assigns to `final_answer` for each failure. -/
def failMsg : CallFailure → String
  | .parse e => "Tool execution error: " ++ e
  | .validation e => "Tool validation error: " ++ e
  | .generic e => "Tool execution error: " ++ e

/-- The failure `f` actually occurs for call `c` under environment `env`. -/
def callFails (env : AgentEnv) (c : ToolCallFn) : CallFailure → Prop
  | .parse e => env.jsonLoads c.arguments = Except.error e
  | .validation e => ∃ a, env.jsonLoads c.arguments = Except.ok a ∧
      execToolCall env c.name a = Except.error (PyErr.validation e)
  | .generic e => ∃ a, env.jsonLoads c.arguments = Except.ok a ∧
      execToolCall env c.name a = Except.error (PyErr.generic e)

/-- C4 (amended).  A malformed-argument parse failure or a raising tool
execution does not become a conversational observation: the loop sets the
failure text as `final_answer`, appends nothing to the conversation for
the failed call, skips the remaining calls of the step, and — the text
being truthy — the run terminates at that step. -/
theorem dispatch_failure_terminates (env : AgentEnv) (dst : DispatchState)
    (c : ToolCallFn) (rest : List ToolCallFn) (f : CallFailure)
    (hnl : ¬ (dst.detector.threshold ≤
      trailingRun (dst.detector.tool_history ++ [(c.name, c.arguments)])))
    (hf : callFails env c f) :
    dispatchCalls env dst (c :: rest) =
      { dst with
        detector := { dst.detector with
          tool_history := dst.detector.tool_history ++ [(c.name, c.arguments)] }
        final := some (failMsg f) } ∧
    truthy (some (failMsg f)) = true := by
  have hstep := check_tool_call_no_trip dst.detector c.name c.arguments hnl
  cases f with
  | parse e =>
    constructor
    · simp only [dispatchCalls, hstep]
      simp only [callFails] at hf
      simp [hf, failMsg]
    · exact truthy_some_append "Tool execution error: " e (by decide)
  | validation e =>
    obtain ⟨a, hp2, hx2⟩ := hf
    constructor
    · simp only [dispatchCalls, hstep]
      simp [hp2, hx2, failMsg]
    · exact truthy_some_append "Tool validation error: " e (by decide)
  | generic e =>
    obtain ⟨a, hp2, hx2⟩ := hf
    constructor
    · simp only [dispatchCalls, hstep]
      simp [hp2, hx2, failMsg]
    · exact truthy_some_append "Tool execution error: " e (by decide)

theorem dispatch_failure_terminates_witness :
    dispatchCalls badArgsEnv
      { detector := freshDetector, messages := [], records := [], final := none }
      [{ name := "adder", arguments := "oops" },
       { name := "adder", arguments := "again" }] =
      { detector := { freshDetector with tool_history := [("adder", "oops")] }
        messages := [], records := []
        final := some (failMsg (CallFailure.parse "invalid json")) } ∧
    truthy (some (failMsg (CallFailure.parse "invalid json"))) = true :=
  dispatch_failure_terminates badArgsEnv
    { detector := freshDetector, messages := [], records := [], final := none }
    { name := "adder", arguments := "oops" }
    [{ name := "adder", arguments := "again" }]
    (CallFailure.parse "invalid json") (by decide) rfl

/-- C4 counterexample.  A run in which the single requested call has
malformed arguments terminates at step 1 of 3 with the failure text as the
final answer, the trace ending `completed` and the failing step logging no
tool-call record — the failure neither becomes an appended observation nor
lets the run continue. -/
theorem dispatch_failure_terminates_cex :
    (ObservableAgent.run threeStepCfg badArgsEnv freshTracer freshDetector
      freshCost "q").answer = "Tool execution error: invalid json" ∧
    (ObservableAgent.run threeStepCfg badArgsEnv freshTracer freshDetector
      freshCost "q").steps = 1 ∧
    traceStatusAt (ObservableAgent.run threeStepCfg badArgsEnv freshTracer
      freshDetector freshCost "q").tracer 0 = some "completed" ∧
    (getAt? (ObservableAgent.run threeStepCfg badArgsEnv freshTracer
        freshDetector freshCost "q").tracer.traces 0).map
      (fun t => t.steps.map AgentStep.tool_calls) = some [[]] :=
  ⟨rfl, rfl, rfl, rfl⟩
